import Mathlib

/-!
Shallow embedding of the discrepancy-classification core of an HTTP/1.1
differential-fuzzing harness (`tools/diff_fuzz.py`): the message model and
server profiles it consumes, the request normalizer `normalize_request`,
and the pairwise classifier `categorize_discrepancy`.

Byte strings are embedded as `String` (byte-wise lexicographic comparison
becomes character-wise lexicographic comparison); Python's `None` entries
produced by `itertools.zip_longest` become `Option` values.
-/

namespace DiffFuzz

/-- Modelled from the spec: the `http1` message module is not among the
analysed sources.  Per §3 a parsed request is an immutable value with a
method, a target, a version, an ordered header list (duplicates permitted)
and a body; equality is structural. -/
structure HTTPRequest where
  method : String
  uri : String
  version : String
  headers : List (String × String)
  body : String
deriving DecidableEq

/-- Modelled from the spec: a parsed response.  Only the status code
(a three-byte string such as "400") is inspected by the classifier (§3). -/
structure HTTPResponse where
  code : String
deriving DecidableEq

/-- Modelled from the spec: the `targets.Server` profile type is not among
the analysed sources.  Per §3 it is a passive descriptor of one target's
known quirks; the field names follow the attributes read by
`tools/diff_fuzz.py`. -/
structure Server where
  name : String := ""
  added_headers : List String := []
  removed_headers : List String := []
  trashed_headers : List String := []
  header_name_translation : List (String × String) := []
  doesnt_support_persistence : Bool := false
  allows_http_0_9 : Bool := true
  requires_length_in_post : Bool := false
  allows_missing_host_header : Bool := true
  method_whitelist : Option (List String) := none
  method_character_blacklist : List Char := []
deriving DecidableEq

/-- Modelled from the spec: `util.translate` is not among the analysed
sources; it applies a name-to-name mapping, leaving unmapped names
unchanged (first matching key wins). -/
def translate (k : String) (tbl : List (String × String)) : String :=
  match tbl.find? (fun p => p.1 == k) with
  | some p => p.2
  | none => k

/-- Modelled from the spec: `http1.remove_request_header` is not among the
analysed sources; per §3 it is the remove-by-name operation on the
immutable message value, removing every header whose name matches exactly
(§9 leaves case-folding an open question, so exact matching is used and
all concrete inputs below use lower-case names). -/
def remove_request_header (r : HTTPRequest) (name : String) : HTTPRequest :=
  { r with headers := r.headers.filter (fun p => !(p.1 == name)) }

/-- Modelled from the spec: `http1.translate_request_header_names` is not
among the analysed sources; per §4.1 step 4 it rewrites every header name
in the request through the mapping. -/
def translate_request_header_names (r : HTTPRequest) (tbl : List (String × String)) : HTTPRequest :=
  { r with headers := r.headers.map (fun p => (translate p.1 tbl, p.2)) }

/-- Modelled from the spec: `HTTPRequest.has_header`, read by the
classifier's missing-Host exception; true when some header has the given
name (exact match, see `remove_request_header`). -/
def has_header (r : HTTPRequest) (name : String) : Bool :=
  r.headers.any (fun p => p.1 == name)

/-- Byte-wise (here: character-wise) lexicographic strict order, as Python
compares two byte strings. -/
def charListLtB : List Char → List Char → Bool
  | [], [] => false
  | [], _ :: _ => true
  | _ :: _, [] => false
  | a :: as, b :: bs =>
    if a.toNat < b.toNat then true
    else if b.toNat < a.toNat then false
    else charListLtB as bs

def strLtB (a b : String) : Bool := charListLtB a.data b.data

def strLeB (a b : String) : Bool := strLtB a b || a == b

/-- The order Python's `list.sort()` uses on `(name, value)` header pairs:
lexicographic on the pair, each component compared byte-wise. -/
def headerLeB (p q : String × String) : Bool :=
  strLtB p.1 q.1 || (p.1 == q.1 && strLeB p.2 q.2)

def headerLE (p q : String × String) : Prop := headerLeB p q = true

instance : DecidableRel headerLE := fun p q => by unfold headerLE; infer_instance

/-- `r1.headers.sort()` of the source: a stable sort under the total
preorder `headerLE`, which determines the same output list as Python's
stable `list.sort()`. -/
def sortHeaders (hs : List (String × String)) : List (String × String) :=
  List.insertionSort headerLE hs

/-- `normalize_request` of `tools/diff_fuzz.py` (lines 26-53): the three
removal loops, the conditional header-name translation, and the final
in-place sort, in source order. -/
def normalize_request (r1 : HTTPRequest) (s1 s2 : Server) : HTTPRequest :=
  let ra := List.foldl remove_request_header r1 s1.added_headers
  let rb := List.foldl remove_request_header ra
    (s2.added_headers.map (fun k => translate k s1.header_name_translation))
  let rc := List.foldl remove_request_header rb
    ((s2.removed_headers ++ s2.trashed_headers).map (fun k => translate k s1.header_name_translation)
      ++ s1.trashed_headers ++ s1.removed_headers)
  let rd := if 0 < s2.header_name_translation.length
    then translate_request_header_names rc s2.header_name_translation
    else rc
  { rd with headers := sortHeaders rd.headers }

/-- True exactly when some statement of `normalize_request` rebinds the
Python name `r1` away from the caller's request object before the
in-place `r1.headers.sort()` on line 52 runs: each loop iterates (and so
calls `remove_request_header`, which yields a fresh value) iff its name
list is non-empty, and the translation branch runs iff the translation
table is non-empty. -/
def normalize_breaks_alias (s1 s2 : Server) : Bool :=
  !s1.added_headers.isEmpty
    || !s2.added_headers.isEmpty
    || !s2.removed_headers.isEmpty
    || !s2.trashed_headers.isEmpty
    || !s1.trashed_headers.isEmpty
    || !s1.removed_headers.isEmpty
    || 0 < s2.header_name_translation.length

/-- `normalize_request` together with the state of the caller's request
object after the call.  Modelled from the spec for the message operations
(§3 makes them immutable value operations returning fresh values), while
the final `r1.headers.sort()` on line 52 of `tools/diff_fuzz.py` is
Python's in-place list sort: when no removal or translation step ran,
`r1` still aliases the caller's object there, so the caller's object
becomes the sorted result; otherwise the caller's object is untouched. -/
def normalize_request_mut (r1 : HTTPRequest) (s1 s2 : Server) : HTTPRequest × HTTPRequest :=
  (normalize_request r1 s1 s2,
    if normalize_breaks_alias s1 s2 then r1 else normalize_request r1 s1 s2)

/-- `DiscrepancyType` of `tools/diff_fuzz.py` (lines 56-60). -/
inductive DiscrepancyType where
  | NO_DISCREPANCY
  | STATUS_DISCREPANCY
  | SUBTLE_DISCREPANCY
  | STREAM_DISCREPANCY
deriving DecidableEq

/-- One entry of a result sequence: an accepted request or a rejection
response.  `Absent` positions are the `none` values `zip_longest` pads
with, hence `Option Entry` below. -/
inductive Entry where
  | req : HTTPRequest → Entry
  | resp : HTTPResponse → Entry
deriving DecidableEq

def getReq : Option Entry → Option HTTPRequest
  | some (.req r) => some r
  | _ => none

def getResp : Option Entry → Option HTTPResponse
  | some (.resp q) => some q
  | _ => none

/-- `isinstance(r, HTTPRequest)` on a position entry. -/
def isReqO (o : Option Entry) : Bool := (getReq o).isSome

/-- `isinstance(r, HTTPResponse)` on a position entry. -/
def isRespO (o : Option Entry) : Bool := (getResp o).isSome

/-- `isinstance(r, HTTPResponse) and r.code == c`. -/
def respCodeIs (o : Option Entry) (c : String) : Bool :=
  match getResp o with
  | some q => q.code == c
  | none => false

/-- `isinstance(r, HTTPRequest) and r.version == v`. -/
def reqVersionIs (o : Option Entry) (v : String) : Bool :=
  match getReq o with
  | some r => r.version == v
  | none => false

/-- `isinstance(r, HTTPRequest) and r.method == m`. -/
def reqMethodIs (o : Option Entry) (m : String) : Bool :=
  match getReq o with
  | some r => r.method == m
  | none => false

/-- `isinstance(r, HTTPRequest) and not r.has_header(b"host")`. -/
def reqLacksHost (o : Option Entry) : Bool :=
  match getReq o with
  | some r => !(has_header r "host")
  | none => false

/-- `s.method_whitelist is not None and isinstance(r, HTTPRequest) and
r.method not in s.method_whitelist`. -/
def whitelistExcludes (s : Server) (o : Option Entry) : Bool :=
  match s.method_whitelist, getReq o with
  | some wl, some r => !(wl.contains r.method)
  | _, _ => false

/-- `isinstance(r, HTTPRequest) and any(b in s.method_character_blacklist
for b in r.method)`. -/
def blacklistHits (s : Server) (o : Option Entry) : Bool :=
  match getReq o with
  | some r => r.method.data.any (fun c => s.method_character_blacklist.contains c)
  | none => false

/-- The outcome of the body of the per-position loop of
`categorize_discrepancy`: Python's `break` (stop comparing this pair,
no discrepancy), falling through to the next iteration, or `return`. -/
inductive StepResult where
  | stop
  | next
  | verdict : DiscrepancyType → StepResult
deriving DecidableEq

/-- The body of the per-position loop of `categorize_discrepancy`
(`tools/diff_fuzz.py` lines 72-172), with the source's conditions in
source order — including line 96's `s2.allows_http_0_9` in the second
disjunct of the HTTP/0.9 exception. -/
def compare_entry (r1 r2 : Option Entry) (s1 s2 : Server) : StepResult :=
  if (r1.isNone && respCodeIs r2 "400") || (r2.isNone && respCodeIs r1 "400") then
    .stop
  else if (r1.isNone || r2.isNone) && !(r1.isNone && r2.isNone) then
    .verdict .STREAM_DISCREPANCY
  else if (isReqO r1 && !isReqO r2) || (!isReqO r1 && isReqO r2) then
    if (reqVersionIs r1 "0.9" && isRespO r2 && !s2.allows_http_0_9)
        || (reqVersionIs r2 "0.9" && isRespO r1 && !s2.allows_http_0_9) then
      .stop
    else if (respCodeIs r1 "411" && s1.requires_length_in_post
          && reqMethodIs r2 "POST" && !s2.requires_length_in_post)
        || (respCodeIs r2 "411" && s2.requires_length_in_post
          && reqMethodIs r1 "POST" && !s1.requires_length_in_post) then
      .stop
    else if ((r1.isNone || respCodeIs r1 "400") && !s1.allows_missing_host_header
          && isReqO r2 && s2.allows_missing_host_header && reqLacksHost r2)
        || ((r2.isNone || respCodeIs r2 "400") && !s2.allows_missing_host_header
          && isReqO r1 && s1.allows_missing_host_header && reqLacksHost r1) then
      .stop
    else if (isRespO r1 && whitelistExcludes s1 r2)
        || (isRespO r2 && whitelistExcludes s2 r1) then
      .stop
    else if (isRespO r1 && isReqO r2 && blacklistHits s1 r2)
        || (isRespO r2 && isReqO r1 && blacklistHits s2 r1) then
      .stop
    else
      .verdict .STATUS_DISCREPANCY
  else
    match getReq r1, getReq r2 with
    | some a, some b =>
      if normalize_request a s1 s2 = normalize_request b s2 s1 then .next
      else .verdict .SUBTLE_DISCREPANCY
    | _, _ => .next

/-- `itertools.zip_longest` on two lists, padding the shorter with `none`. -/
def zipLongest : List α → List α → List (Option α × Option α)
  | [], bs => bs.map (fun b => (none, some b))
  | a :: as, [] => (some a, none) :: zipLongest as []
  | a :: as, b :: bs => (some a, some b) :: zipLongest as bs

/-- The per-position loop over one server pair: first `return` value wins,
`break` abandons the pair with no verdict. -/
def compare_positions (s1 s2 : Server) : List (Option Entry × Option Entry) → Option DiscrepancyType
  | [] => none
  | (r1, r2) :: rest =>
    match compare_entry r1 r2 s1 s2 with
    | .stop => none
    | .verdict d => some d
    | .next => compare_positions s1 s2 rest

/-- One iteration of the outer pair loop of `categorize_discrepancy`
(lines 68-172): the persistence truncation followed by the per-position
loop. -/
def compare_pair (pts1 pts2 : List Entry) (s1 s2 : Server) : Option DiscrepancyType :=
  if s1.doesnt_support_persistence || s2.doesnt_support_persistence then
    compare_positions s1 s2 (zipLongest (pts1.take 1) (pts2.take 1))
  else
    compare_positions s1 s2 (zipLongest pts1 pts2)

/-- `itertools.combinations(l, 2)` in its enumeration order. -/
def pairsOf : List α → List (α × α)
  | [] => []
  | x :: xs => xs.map (fun y => (x, y)) ++ pairsOf xs

/-- The outer pair loop: the first pair that `return`s a verdict decides;
otherwise `NO_DISCREPANCY`. -/
def firstVerdict : List ((List Entry × Server) × (List Entry × Server)) → DiscrepancyType
  | [] => .NO_DISCREPANCY
  | ((p1, s1), (p2, s2)) :: rest =>
    match compare_pair p1 p2 s1 s2 with
    | some d => d
    | none => firstVerdict rest

/-- `categorize_discrepancy` of `tools/diff_fuzz.py` (lines 63-173).
`zip(parse_trees, servers)` silently truncates to the shorter list. -/
def categorize_discrepancy (parse_trees : List (List Entry)) (servers : List Server) : DiscrepancyType :=
  firstVerdict (pairsOf (parse_trees.zip servers))

/-- Membership of a header name in a list of names, as each removal loop
of `normalize_request` tests it. -/
def memB (n : String) (names : List String) : Bool := names.any (fun m => n == m)

/-- All header names removed by the three loops of `normalize_request`,
in loop order. -/
def combined_removal_names (s1 s2 : Server) : List String :=
  s1.added_headers
    ++ s2.added_headers.map (fun k => translate k s1.header_name_translation)
    ++ ((s2.removed_headers ++ s2.trashed_headers).map (fun k => translate k s1.header_name_translation)
      ++ s1.trashed_headers ++ s1.removed_headers)

/-- Whether an entry is a rejection response. -/
def isRespE : Entry → Bool
  | .resp _ => true
  | .req _ => false

/-! Concrete fixtures used by witnesses and counterexamples. -/

/-- `GET / HTTP/1.1` with no headers. -/
def reqGET : HTTPRequest :=
  { method := "GET", uri := "/", version := "1.1", headers := [], body := "" }

/-- A request parsed under the HTTP/0.9 fallback. -/
def req09 : HTTPRequest := { reqGET with version := "0.9" }

/-- A rejection response whose status is neither "400" nor "411". -/
def resp505 : HTTPResponse := { code := "505" }

/-- A profile with every quirk switched off. -/
def sPlain : Server := {}

/-- A plain profile except that HTTP/0.9 is not allowed. -/
def sNo09 : Server := { allows_http_0_9 := false }

/-- A plain profile except that a missing Host header is rejected. -/
def sNeedsHost : Server := { allows_missing_host_header := false }

/-- A plain profile except that persistent connections are unsupported. -/
def sNoPersist : Server := { doesnt_support_persistence := true }

/-- A request whose header list is not sorted. -/
def reqUnsorted : HTTPRequest :=
  { reqGET with headers := [("b", "2"), ("a", "1")] }

/-- A profile that removes the header name "b". -/
def sRemovesB : Server := { removed_headers := ["b"] }

/-- A profile that removes the header name "z". -/
def sRemovesZ : Server := { removed_headers := ["z"] }

/-- A profile whose header-name translation renames "a" to "b". -/
def sRenamesAtoB : Server := { header_name_translation := [("a", "b")] }

/-- A request carrying the header name "a". -/
def reqWithA : HTTPRequest := { reqGET with headers := [("a", "1")] }

/-! Order theory for the header sort: `headerLE` is a total preorder, so
`List.insertionSort` produces sorted output and fixes sorted lists. -/

theorem charListLtB_trans : ∀ {as bs cs : List Char},
    charListLtB as bs = true → charListLtB bs cs = true → charListLtB as cs = true := by
  intro as
  induction as with
  | nil =>
    intro bs cs h1 h2
    cases bs with
    | nil => simp [charListLtB] at h1
    | cons b bs' =>
      cases cs with
      | nil => simp [charListLtB] at h2
      | cons c cs' => rfl
  | cons a as' ih =>
    intro bs cs h1 h2
    cases bs with
    | nil => simp [charListLtB] at h1
    | cons b bs' =>
      cases cs with
      | nil => simp [charListLtB] at h2
      | cons c cs' =>
        simp only [charListLtB] at h1 h2 ⊢
        by_cases hab : a.toNat < b.toNat
        · by_cases hbc : b.toNat < c.toNat
          · rw [if_pos (by omega)]
          · by_cases hcb : c.toNat < b.toNat
            · rw [if_neg hbc, if_pos hcb] at h2; simp at h2
            · rw [if_pos (by omega)]
        · by_cases hba : b.toNat < a.toNat
          · rw [if_neg hab, if_pos hba] at h1; simp at h1
          · rw [if_neg hab, if_neg hba] at h1
            by_cases hbc : b.toNat < c.toNat
            · rw [if_pos (by omega)]
            · by_cases hcb : c.toNat < b.toNat
              · rw [if_neg hbc, if_pos hcb] at h2; simp at h2
              · rw [if_neg hbc, if_neg hcb] at h2
                rw [if_neg (by omega), if_neg (by omega)]
                exact ih h1 h2

theorem charListLtB_or_eq : ∀ (as bs : List Char),
    charListLtB as bs = true ∨ charListLtB bs as = true ∨ as = bs := by
  intro as
  induction as with
  | nil =>
    intro bs
    cases bs with
    | nil => right; right; rfl
    | cons b bs' => left; rfl
  | cons a as' ih =>
    intro bs
    cases bs with
    | nil => right; left; rfl
    | cons b bs' =>
      rcases Nat.lt_trichotomy a.toNat b.toNat with h | h | h
      · left; simp [charListLtB, h]
      · have hab : a = b := Char.ext (UInt32.ext h)
        subst hab
        rcases ih bs' with h' | h' | h'
        · left; simp [charListLtB, h']
        · right; left; simp [charListLtB, h']
        · right; right; rw [h']
      · right; left; simp [charListLtB, h]

theorem strLtB_trans {a b c : String} (h1 : strLtB a b = true) (h2 : strLtB b c = true) :
    strLtB a c = true := charListLtB_trans h1 h2

theorem strLtB_or_eq (a b : String) : strLtB a b = true ∨ strLtB b a = true ∨ a = b := by
  rcases charListLtB_or_eq a.data b.data with h | h | h
  · left; exact h
  · right; left; exact h
  · right; right
    cases a; cases b
    exact congrArg String.mk h

theorem strLeB_trans {a b c : String} (h1 : strLeB a b = true) (h2 : strLeB b c = true) :
    strLeB a c = true := by
  simp only [strLeB, Bool.or_eq_true, beq_iff_eq] at h1 h2 ⊢
  rcases h1 with h1 | h1
  · rcases h2 with h2 | h2
    · left; exact strLtB_trans h1 h2
    · left; rw [← h2]; exact h1
  · rcases h2 with h2 | h2
    · left; rw [h1]; exact h2
    · right; rw [h1, h2]

instance : IsTotal (String × String) headerLE := by
  constructor
  intro p q
  unfold headerLE headerLeB
  simp only [Bool.or_eq_true, Bool.and_eq_true, beq_iff_eq]
  rcases strLtB_or_eq p.1 q.1 with h | h | h
  · left; left; exact h
  · right; left; exact h
  · rcases strLtB_or_eq p.2 q.2 with h2 | h2 | h2
    · left; right; exact ⟨h, by simp [strLeB, h2]⟩
    · right; right; exact ⟨h.symm, by simp [strLeB, h2]⟩
    · left; right; exact ⟨h, by simp [strLeB, h2]⟩

instance : IsTrans (String × String) headerLE := by
  constructor
  intro p q r h1 h2
  unfold headerLE headerLeB at h1 h2 ⊢
  simp only [Bool.or_eq_true, Bool.and_eq_true, beq_iff_eq] at h1 h2 ⊢
  rcases h1 with h1 | ⟨h1e, h1le⟩
  · rcases h2 with h2 | ⟨h2e, _⟩
    · left; exact strLtB_trans h1 h2
    · left; rw [← h2e]; exact h1
  · rcases h2 with h2 | ⟨h2e, h2le⟩
    · left; rw [h1e]; exact h2
    · right; exact ⟨h1e.trans h2e, strLeB_trans h1le h2le⟩

/-! Closed form of the normalizer: the three removal loops amount to one
filter against a combined name list, followed by the translation map and
the sort. -/

theorem foldl_remove_eq_filter (names : List String) (r : HTTPRequest) :
    List.foldl remove_request_header r names
      = { r with headers := r.headers.filter (fun p => !memB p.1 names) } := by
  induction names generalizing r with
  | nil =>
    show r = _
    have : r.headers.filter (fun p => !memB p.1 []) = r.headers :=
      List.filter_eq_self.mpr (fun a _ => rfl)
    rw [this]
  | cons k ks ih =>
    rw [List.foldl_cons, ih]
    show ({ remove_request_header r k with
        headers := (remove_request_header r k).headers.filter (fun p => !memB p.1 ks) } : HTTPRequest) = _
    simp only [remove_request_header, List.filter_filter]
    congr 1
    apply List.filter_congr
    intro x _
    simp only [memB, List.any_cons, Bool.not_or]
    cases hxk : x.1 == k <;> cases hxs : x.2 == x.2 <;>
      simp [memB, hxk, Bool.and_comm]

theorem normalize_request_closed (r : HTTPRequest) (s1 s2 : Server) :
    normalize_request r s1 s2
      = { r with headers := sortHeaders ((r.headers.filter
            (fun p => !memB p.1 (combined_removal_names s1 s2))).map
            (fun p => (translate p.1 s2.header_name_translation, p.2))) } := by
  unfold normalize_request
  simp only [foldl_remove_eq_filter, List.filter_filter, combined_removal_names]
  by_cases hT : 0 < s2.header_name_translation.length
  · rw [if_pos hT]
    simp only [translate_request_header_names]
    congr 2
    apply congrArg
    apply List.filter_congr
    intro x _
    simp only [memB, List.any_append, Bool.not_or]
    cases memB x.1 s1.added_headers <;>
      cases memB x.1 (s2.added_headers.map (fun k => translate k s1.header_name_translation)) <;>
      simp [memB, List.any_append, Bool.and_comm, Bool.and_left_comm]
  · rw [if_neg hT]
    have hTnil : s2.header_name_translation = [] :=
      List.length_eq_zero.mp (Nat.eq_zero_of_not_pos hT)
    rw [hTnil]
    have hmap : ∀ l : List (String × String),
        l.map (fun p => (translate p.1 ([] : List (String × String)), p.2)) = l := by
      intro l
      have : ∀ a ∈ l, (fun p : String × String => (translate p.1 ([] : List (String × String)), p.2)) a
          = (fun a => a) a := fun a _ => rfl
      rw [List.map_congr_left this, List.map_id']
    rw [hmap]
    congr 2
    apply List.filter_congr
    intro x _
    simp only [memB, List.any_append, Bool.not_or]
    cases memB x.1 s1.added_headers <;>
      cases memB x.1 (s2.added_headers.map (fun k => translate k s1.header_name_translation)) <;>
      simp [memB, List.any_append, Bool.and_comm, Bool.and_left_comm]

theorem translate_mem_or_self (n : String) (T : List (String × String)) :
    translate n T = n ∨ ∃ pr ∈ T, translate n T = pr.2 := by
  unfold translate
  cases hf : T.find? (fun p => p.1 == n) with
  | none => left; rfl
  | some pr => right; exact ⟨pr, List.mem_of_find?_eq_some hf, rfl⟩

/-- Every header of a normalized request has a name outside the combined
removal list and fixed by the other profile's translation, provided the
translation's values are themselves fixed points outside the removal
list. -/
theorem normalize_request_headers_stable (r : HTTPRequest) (s1 s2 : Server)
    (H1 : ∀ pr ∈ s2.header_name_translation,
      translate pr.2 s2.header_name_translation = pr.2)
    (H2 : ∀ pr ∈ s2.header_name_translation,
      memB pr.2 (combined_removal_names s1 s2) = false) :
    ∀ p ∈ (normalize_request r s1 s2).headers,
      memB p.1 (combined_removal_names s1 s2) = false
        ∧ translate p.1 s2.header_name_translation = p.1 := by
  intro p hp
  rw [normalize_request_closed] at hp
  replace hp : p ∈ sortHeaders ((r.headers.filter
      (fun p => !memB p.1 (combined_removal_names s1 s2))).map
      (fun p => (translate p.1 s2.header_name_translation, p.2))) := hp
  have hp2 := (List.perm_insertionSort headerLE _).mem_iff.mp hp
  obtain ⟨q, hq, rfl⟩ := List.mem_map.mp hp2
  have hkeep : memB q.1 (combined_removal_names s1 s2) = false := by
    have h2 := (List.mem_filter.mp hq).2
    simpa using h2
  rcases translate_mem_or_self q.1 s2.header_name_translation with ht | ⟨pr, hpr, ht⟩
  · constructor
    · show memB (translate q.1 s2.header_name_translation) (combined_removal_names s1 s2) = false
      rw [ht]; exact hkeep
    · show translate (translate q.1 s2.header_name_translation) s2.header_name_translation
        = translate q.1 s2.header_name_translation
      rw [ht]; exact ht
  · constructor
    · show memB (translate q.1 s2.header_name_translation) (combined_removal_names s1 s2) = false
      rw [ht]; exact H2 pr hpr
    · show translate (translate q.1 s2.header_name_translation) s2.header_name_translation
        = translate q.1 s2.header_name_translation
      rw [ht]; exact H1 pr hpr

/-! Helper lemmas about the classifier's loops. -/

/-- With exactly two servers the outer pair loop visits the single pair. -/
theorem categorize_two (a b : List Entry) (s t : Server) :
    categorize_discrepancy [a, b] [s, t]
      = match compare_pair a b s t with
        | some d => d
        | none => DiscrepancyType.NO_DISCREPANCY := rfl

theorem compare_entry_self (e : Entry) (s : Server) :
    compare_entry (some e) (some e) s s = .next := by
  cases e with
  | req r => simp [compare_entry, getReq, getResp, isReqO, isRespO, respCodeIs]
  | resp q => simp [compare_entry, getReq, getResp, isReqO, isRespO, respCodeIs]

theorem compare_positions_refl (s : Server) (t : List Entry) :
    compare_positions s s (zipLongest t t) = none := by
  induction t with
  | nil => rfl
  | cons e ts ih => simp [zipLongest, compare_positions, compare_entry_self, ih]

theorem compare_entry_resp_resp (a b : HTTPResponse) (s1 s2 : Server) :
    compare_entry (some (.resp a)) (some (.resp b)) s1 s2 = .next := by
  simp [compare_entry, getReq, getResp, isReqO, isRespO, respCodeIs]

theorem compare_entry_resp_none (a : HTTPResponse) (s1 s2 : Server) :
    compare_entry (some (.resp a)) none s1 s2
      = if a.code = "400" then .stop else .verdict .STREAM_DISCREPANCY := by
  by_cases h : a.code = "400" <;>
    simp [compare_entry, getReq, getResp, isReqO, isRespO, respCodeIs, h]

theorem compare_entry_none_resp (b : HTTPResponse) (s1 s2 : Server) :
    compare_entry none (some (.resp b)) s1 s2
      = if b.code = "400" then .stop else .verdict .STREAM_DISCREPANCY := by
  by_cases h : b.code = "400" <;>
    simp [compare_entry, getReq, getResp, isReqO, isRespO, respCodeIs, h]

theorem compare_positions_resps_ne_status (s1 s2 : Server) :
    ∀ l1 l2 : List Entry, (∀ e ∈ l1, isRespE e = true) → (∀ e ∈ l2, isRespE e = true) →
      compare_positions s1 s2 (zipLongest l1 l2) ≠ some .STATUS_DISCREPANCY := by
  intro l1
  induction l1 with
  | nil =>
    intro l2 _ h2
    induction l2 with
    | nil => simp [zipLongest, compare_positions]
    | cons b bs ihb =>
      cases b with
      | req rb => exact absurd (h2 _ (List.mem_cons_self _ _)) (by simp [isRespE])
      | resp qb =>
        show compare_positions s1 s2 ((none, some (.resp qb)) :: zipLongest [] bs)
          ≠ some .STATUS_DISCREPANCY
        rw [compare_positions, compare_entry_none_resp]
        by_cases hc : qb.code = "400"
        · simp [hc]
        · simp [hc]
  | cons a as iha =>
    intro l2 h1 h2
    cases a with
    | req ra => exact absurd (h1 _ (List.mem_cons_self _ _)) (by simp [isRespE])
    | resp qa =>
      cases l2 with
      | nil =>
        show compare_positions s1 s2 ((some (.resp qa), none) :: zipLongest as [])
          ≠ some .STATUS_DISCREPANCY
        rw [compare_positions, compare_entry_resp_none]
        by_cases hc : qa.code = "400"
        · simp [hc]
        · simp [hc]
      | cons b bs =>
        cases b with
        | req rb => exact absurd (h2 _ (List.mem_cons_self _ _)) (by simp [isRespE])
        | resp qb =>
          show compare_positions s1 s2
              ((some (.resp qa), some (.resp qb)) :: zipLongest as bs)
            ≠ some .STATUS_DISCREPANCY
          rw [compare_positions, compare_entry_resp_resp]
          exact iha bs (fun e he => h1 e (List.mem_cons_of_mem _ he))
            (fun e he => h2 e (List.mem_cons_of_mem _ he))

/-- `zip` only consumes the common prefix of its two arguments. -/
theorem zip_take_min (as : List α) (bs : List β) :
    as.zip bs = (as.take (min as.length bs.length)).zip (bs.take (min as.length bs.length)) := by
  induction as generalizing bs with
  | nil => simp
  | cons a as' ih =>
    cases bs with
    | nil => simp
    | cons b bs' =>
      simp only [List.length_cons, Nat.succ_min_succ, List.take_succ_cons, List.zip_cons_cons]
      rw [← ih]

/-! The claims. -/

/-- Claim C1: the spec asserts `classify([seqA, seqB], [profA, profB]) =
classify([seqB, seqA], [profB, profA])` for all inputs.  The code violates
this: line 96 of `tools/diff_fuzz.py` tests `s2.allows_http_0_9` in the
disjunct where the rejecting server is `s1`, so with a server that rejects
HTTP/0.9 listed first the verdict is `STATUS_DISCREPANCY`, while listing
it second yields `NO_DISCREPANCY`. -/
theorem C1_swap_changes_verdict :
    categorize_discrepancy [[.resp resp505], [.req req09]] [sNo09, sPlain]
        = .STATUS_DISCREPANCY
      ∧ categorize_discrepancy [[.req req09], [.resp resp505]] [sPlain, sNo09]
        = .NO_DISCREPANCY := by
  decide

/-- Claim C2: the spec asserts the HTTP/0.9 exception is evaluated
symmetrically with respect to which server rejected.  The code violates
this: when the rejecter is the first server of the pair (here `sNo09`,
which does not allow HTTP/0.9) and the second server accepted the message
as HTTP/0.9, line 96 consults the accepter's profile instead, so the
position is classified `STATUS_DISCREPANCY` instead of being treated as
non-discrepant. -/
theorem C2_http09_rejecter_first_not_excused :
    compare_entry (some (.resp resp505)) (some (.req req09)) sNo09 sPlain
      = .verdict .STATUS_DISCREPANCY := by
  decide

/-- Claim C3, counterexample: with two quirk-free profiles no removal or
translation step runs, so `r1.headers.sort()` on line 52 sorts the
caller's request object in place — the input request is changed by the
call. -/
theorem C3_counterexample :
    (normalize_request_mut reqUnsorted sPlain sPlain).2 ≠ reqUnsorted := by
  decide

/-- Claim C3 (amended): `normalize_request` is deterministic and its only
possible effect on the input request is the in-place sort of the input's
header list, which happens exactly when no removal or translation step
runs; in that case the caller's object becomes the input with its headers
sorted, and otherwise it is left unchanged. -/
theorem C3_normalize_frame (r : HTTPRequest) (s1 s2 : Server) :
    (normalize_request_mut r s1 s2).2 = r ∨
      (normalize_request_mut r s1 s2).2 = { r with headers := sortHeaders r.headers } := by
  unfold normalize_request_mut
  cases hb : normalize_breaks_alias s1 s2 with
  | true => left; simp [hb]
  | false =>
    right
    simp only [hb, Bool.false_eq_true, if_false]
    unfold normalize_breaks_alias at hb
    rw [Bool.or_eq_false_iff, Bool.or_eq_false_iff, Bool.or_eq_false_iff,
      Bool.or_eq_false_iff, Bool.or_eq_false_iff, Bool.or_eq_false_iff] at hb
    have h1a := hb.1.1.1.1.1.1
    have h2a := hb.1.1.1.1.1.2
    have h2r := hb.1.1.1.1.2
    have h2t := hb.1.1.1.2
    have h1t := hb.1.1.2
    have h1r := hb.1.2
    have hT := hb.2
    rw [Bool.not_eq_false', List.isEmpty_iff] at h1a h2a h2r h2t h1t h1r
    rw [decide_eq_false_iff_not, Nat.not_lt, Nat.le_zero, List.length_eq_zero] at hT
    unfold normalize_request
    rw [h1a, h2a, h2r, h2t, h1t, h1r, hT]
    rfl

/-- Claim C4, counterexample: idempotence of normalization fails when the
other profile's header-name translation maps a name onto a name of a
removal set.  Here the translation renames "a" to "b" and "b" is in the
first profile's removed set: the first pass keeps header "a" and renames
it to "b", and the second pass then removes it. -/
theorem C4_counterexample :
    normalize_request (normalize_request reqWithA sRemovesB sRenamesAtoB) sRemovesB sRenamesAtoB
      ≠ normalize_request reqWithA sRemovesB sRenamesAtoB := by
  decide

/-- Claim C4 (amended): `normalize(normalize(r, p1, p2), p1, p2) =
normalize(r, p1, p2)` holds provided p2's header-name translation is
stable: every value of the translation is a fixed point of the
translation and lies outside the combined removal-name list (the claim's
parenthetical case — a translation value inside a removal set — is
exactly the excluded one). -/
theorem C4_idempotent_when_translation_stable (r : HTTPRequest) (s1 s2 : Server)
    (H1 : ∀ pr ∈ s2.header_name_translation,
      translate pr.2 s2.header_name_translation = pr.2)
    (H2 : ∀ pr ∈ s2.header_name_translation,
      memB pr.2 (combined_removal_names s1 s2) = false) :
    normalize_request (normalize_request r s1 s2) s1 s2 = normalize_request r s1 s2 := by
  have hkey := normalize_request_headers_stable r s1 s2 H1 H2
  conv_lhs => rw [normalize_request_closed]
  have hfil : (normalize_request r s1 s2).headers.filter
      (fun p => !memB p.1 (combined_removal_names s1 s2))
        = (normalize_request r s1 s2).headers :=
    List.filter_eq_self.mpr (fun a ha => by rw [(hkey a ha).1]; rfl)
  rw [hfil]
  have hmap : (normalize_request r s1 s2).headers.map
      (fun p => (translate p.1 s2.header_name_translation, p.2))
        = (normalize_request r s1 s2).headers := by
    have hcong : ∀ a ∈ (normalize_request r s1 s2).headers,
        (fun p : String × String => (translate p.1 s2.header_name_translation, p.2)) a
          = (fun x => x) a := by
      intro a ha
      show (translate a.1 s2.header_name_translation, a.2) = a
      rw [(hkey a ha).2]
    rw [List.map_congr_left hcong, List.map_id']
  rw [hmap]
  have hsort : List.Sorted headerLE (normalize_request r s1 s2).headers := by
    rw [normalize_request_closed]
    exact List.sorted_insertionSort headerLE _
  have hss : sortHeaders (normalize_request r s1 s2).headers
      = (normalize_request r s1 s2).headers := hsort.insertionSort_eq
  rw [hss]

/-- Claim C4, witness: a request with header "a", a profile removing "z",
and a translation renaming "a" to "b" satisfy the stability hypotheses,
and normalization is idempotent there. -/
theorem C4_witness :
    normalize_request (normalize_request reqWithA sRemovesZ sRenamesAtoB) sRemovesZ sRenamesAtoB
      = normalize_request reqWithA sRemovesZ sRenamesAtoB :=
  C4_idempotent_when_translation_stable _ _ _ (by decide) (by decide)

/-- Claim C5, counterexample: called with one result sequence but two
profiles (mismatched lengths), the implementation does not fail loudly; it
produces the verdict `NO_DISCREPANCY`. -/
theorem C5_counterexample :
    categorize_discrepancy [[Entry.req reqGET]] [sPlain, sNo09] = .NO_DISCREPANCY := by
  decide

/-- Claim C5 (amended): on a length mismatch the implementation does not
assert; `zip(parse_trees, servers)` silently truncates both lists to the
shorter length and classification proceeds on the truncated pairing. -/
theorem C5_mismatched_lengths_truncate (pts : List (List Entry)) (srvs : List Server) :
    categorize_discrepancy pts srvs
      = categorize_discrepancy (pts.take (min pts.length srvs.length))
          (srvs.take (min pts.length srvs.length)) := by
  unfold categorize_discrepancy
  rw [← zip_take_min]

/-- Claim C6: when either profile of a pair has persistence support
disabled, only the entries at index 0 can influence the verdict of that
pair — comparing the full sequences equals comparing them truncated to
their first entries, both for the pair comparison and for a two-server
classification. -/
theorem C6_persistence_truncation (p1 p2 : List Entry) (s1 s2 : Server)
    (h : s1.doesnt_support_persistence = true ∨ s2.doesnt_support_persistence = true) :
    compare_pair p1 p2 s1 s2 = compare_pair (p1.take 1) (p2.take 1) s1 s2 ∧
      categorize_discrepancy [p1, p2] [s1, s2]
        = categorize_discrepancy [p1.take 1, p2.take 1] [s1, s2] := by
  have hb : (s1.doesnt_support_persistence || s2.doesnt_support_persistence) = true := by
    rcases h with h | h <;> simp [h]
  have h1 : compare_pair p1 p2 s1 s2 = compare_pair (p1.take 1) (p2.take 1) s1 s2 := by
    unfold compare_pair
    rw [if_pos hb, if_pos hb]
    simp [List.take_take]
  exact ⟨h1, by rw [categorize_two, categorize_two, h1]⟩

/-- Claim C6, witness: a non-persistent first server with a two-entry
sequence against a one-entry sequence. -/
theorem C6_witness :
    compare_pair [Entry.req reqGET, Entry.req req09] [Entry.resp resp505] sNoPersist sPlain
        = compare_pair ([Entry.req reqGET, Entry.req req09].take 1)
            ([Entry.resp resp505].take 1) sNoPersist sPlain
      ∧ categorize_discrepancy [[Entry.req reqGET, Entry.req req09], [Entry.resp resp505]]
            [sNoPersist, sPlain]
        = categorize_discrepancy [[Entry.req reqGET, Entry.req req09].take 1,
            [Entry.resp resp505].take 1] [sNoPersist, sPlain] :=
  C6_persistence_truncation _ _ _ _ (Or.inl (by decide))

/-- Claim C7: classification is reflexive — a server compared against an
identical copy of itself (same result sequence, same profile) yields
`NO_DISCREPANCY`. -/
theorem C7_categorize_reflexive (seq : List Entry) (s : Server) :
    categorize_discrepancy [seq, seq] [s, s] = .NO_DISCREPANCY := by
  rw [categorize_two]
  unfold compare_pair
  cases hb : (s.doesnt_support_persistence || s.doesnt_support_persistence) with
  | false => simp [hb, compare_positions_refl]
  | true => simp [hb, compare_positions_refl]

/-- Claim C8: a position where both servers rejected (two responses) is
non-discrepant and traversal continues, even with different status codes;
and a pair whose sequences consist only of responses never yields
`STATUS_DISCREPANCY`. -/
theorem C8_both_rejected_nondiscrepant (a b : HTTPResponse) (s1 s2 : Server)
    (p1 p2 : List Entry)
    (h1 : ∀ e ∈ p1, isRespE e = true) (h2 : ∀ e ∈ p2, isRespE e = true) :
    compare_entry (some (.resp a)) (some (.resp b)) s1 s2 = .next ∧
      compare_pair p1 p2 s1 s2 ≠ some .STATUS_DISCREPANCY := by
  refine ⟨compare_entry_resp_resp a b s1 s2, ?_⟩
  unfold compare_pair
  split
  · exact compare_positions_resps_ne_status s1 s2 _ _
      (fun e he => h1 e (List.mem_of_mem_take he))
      (fun e he => h2 e (List.mem_of_mem_take he))
  · exact compare_positions_resps_ne_status s1 s2 _ _ h1 h2

/-- Claim C8, witness: response-only sequences with distinct status codes
give neither a `.next`-failure nor a status discrepancy. -/
theorem C8_witness :
    compare_entry (some (.resp ⟨"200"⟩)) (some (.resp ⟨"404"⟩)) sPlain sNo09 = .next ∧
      compare_pair [Entry.resp ⟨"200"⟩, Entry.resp ⟨"400"⟩] [Entry.resp ⟨"404"⟩] sPlain sNo09
        ≠ some .STATUS_DISCREPANCY :=
  C8_both_rejected_nondiscrepant _ _ _ _ _ _ (by decide) (by decide)

/-- Claim C9, counterexample: the claim's Absent case never reaches the
missing-Host exception.  One server produced nothing (its profile requires
a Host header), the other accepted a request without a Host header (its
profile allows that): the claim says non-discrepant, but the code returns
`STREAM_DISCREPANCY` from the earlier asymmetric-absence rule (lines
78-80) before the host exception is consulted. -/
theorem C9_counterexample :
    compare_pair [] [Entry.req reqGET] sNeedsHost sPlain = some .STREAM_DISCREPANCY := by
  decide

/-- Claim C9 (amended): the missing-Host exception only takes effect when
the rejecting side produced a "400" response; in that reachable case the
position is indeed treated as non-discrepant (`.stop`), while a position
pairing an Absent entry with an accepted request is always classified
`STREAM_DISCREPANCY`, whatever the profiles say about Host headers. -/
theorem C9_host_exception_needs_400 (q : HTTPResponse) (r : HTTPRequest) (s1 s2 : Server)
    (hq : q.code = "400") (h1 : s1.allows_missing_host_header = false)
    (h2 : s2.allows_missing_host_header = true) (hh : has_header r "host" = false) :
    compare_entry (some (.resp q)) (some (.req r)) s1 s2 = .stop ∧
      compare_entry none (some (.req r)) s1 s2 = .verdict .STREAM_DISCREPANCY := by
  constructor
  · simp [compare_entry, getReq, getResp, isReqO, isRespO, respCodeIs, reqVersionIs,
      reqMethodIs, reqLacksHost, hq, h1, h2, hh]
  · simp [compare_entry, getReq, getResp, isReqO, isRespO, respCodeIs]

/-- Claim C9, witness: a "400" rejection by a Host-requiring server
against an accepted Host-less request stops the pair comparison, and the
Absent variant is a stream discrepancy. -/
theorem C9_witness :
    compare_entry (some (.resp ⟨"400"⟩)) (some (.req reqGET)) sNeedsHost sPlain = .stop ∧
      compare_entry none (some (.req reqGET)) sNeedsHost sPlain
        = .verdict .STREAM_DISCREPANCY :=
  C9_host_exception_needs_400 _ _ _ _ (by decide) (by decide) (by decide) (by decide)

/-- Claim C10: with fewer than two servers (both parallel lists of length
at most one) the pair loop has nothing to enumerate and the function
returns `NO_DISCREPANCY` without failing. -/
theorem C10_too_few_servers (pts : List (List Entry)) (srvs : List Server)
    (h1 : pts.length ≤ 1) (h2 : srvs.length ≤ 1) :
    categorize_discrepancy pts srvs = .NO_DISCREPANCY := by
  rcases pts with _ | ⟨p, _ | ⟨p2, pts'⟩⟩
  · rfl
  · rcases srvs with _ | ⟨s, _ | ⟨s2, srvs'⟩⟩
    · rfl
    · rfl
    · exfalso; simp only [List.length_cons] at h2; omega
  · exfalso; simp only [List.length_cons] at h1; omega

/-- Claim C10, witness: one sequence and one profile give
`NO_DISCREPANCY`. -/
theorem C10_witness :
    categorize_discrepancy [[Entry.req reqGET]] [sPlain] = .NO_DISCREPANCY :=
  C10_too_few_servers _ _ (by decide) (by decide)

end DiffFuzz

